import Mathlib

/-!
Verification development for the GeoGuess Lite repository.

The repository is a set of near-duplicate JavaScript drafts of a
geography-guessing game.  The definitions below are a shallow embedding of
the decision logic of the drafts:

* `Script.*`   — the advanced IIFE draft in `src/script.js`
  (weighted selection, no-repeat set, score/rounds, give-up).
* `Pub.*`      — the first draft in `src/public/script.js`
  (diacritic-stripping normalisation, mode-based guess evaluation,
  radius-expanding coverage search, per-id coverage cache).
* `Pub2.*`     — the second draft in `src/public/script.js`
  (the recursive `startRound` coverage-retry loop, modelled with fuel).
* `Part000.*`  — `src/unnamed/part_000`
  (the `startRound` coverage-retry loop capped at the catalog size).

JavaScript numbers are modelled by `Rat` (every catalog coordinate is a
finite decimal); possibly-non-finite values by `JSNum`; missing object
fields by `Option`; the DOM and the Google Maps service are abstracted
into explicit parameters (a random tape `Nat → Nat` for `Math.random`,
a lookup function for `StreetViewService.getPanorama`).
-/

/-- Resolved panorama coordinate (models `google.maps.LatLng`). -/
structure Position where
  lat : Rat
  lng : Rat
  deriving DecidableEq

/-- Camera hint (models the optional `pov` object of a place record). -/
structure Pov where
  heading : Rat
  pitch : Rat
  deriving DecidableEq

/-- Normalised catalog entry, as produced by `loadPlaces` in `src/script.js`:
absent strings have become `""`, `lat`/`lng` are finite, `weight` is kept
only when it was a finite number. -/
structure Place where
  id : String
  name : String
  city : String
  country : String
  lat : Rat
  lng : Rat
  difficulty : String
  weight : Option Rat
  pov : Option Pov
  deriving DecidableEq

/-- Character predicate used by trimming (models the whitespace class of
`String.prototype.trim` on the characters the catalog uses). -/
def jsWhitespaceChar (c : Char) : Bool := c.isWhitespace

/-- Trim of a character list: drop whitespace from both ends
(models `String.prototype.trim`). -/
def jsTrim (l : List Char) : List Char :=
  ((l.dropWhile jsWhitespaceChar).reverse.dropWhile jsWhitespaceChar).reverse

/-- String form of `jsTrim`. -/
def jsTrimStr (s : String) : String := ⟨jsTrim s.data⟩

/-- Per-character lower-casing (models `String.prototype.toLowerCase`;
exact on Basic Latin and on the Latin-1 letters the model covers). -/
def jsToLower (c : Char) : Char :=
  match c with
  | 'À' => 'à' | 'Á' => 'á' | 'Â' => 'â' | 'Ã' => 'ã' | 'Ä' => 'ä' | 'Å' => 'å'
  | 'Ç' => 'ç'
  | 'È' => 'è' | 'É' => 'é' | 'Ê' => 'ê' | 'Ë' => 'ë'
  | 'Ì' => 'ì' | 'Í' => 'í' | 'Î' => 'î' | 'Ï' => 'ï'
  | 'Ñ' => 'ñ'
  | 'Ò' => 'ò' | 'Ó' => 'ó' | 'Ô' => 'ô' | 'Õ' => 'õ' | 'Ö' => 'ö'
  | 'Ù' => 'ù' | 'Ú' => 'ú' | 'Û' => 'û' | 'Ü' => 'ü'
  | 'Ý' => 'ý'
  | c => c.toLower

/-- Base letter of a lower-case accented Latin letter (models
`normalize('NFD').replace(/\p{Diacritic}/gu, '')` on precomposed
Latin-1 letters: the combining mark produced by NFD is dropped). -/
def deaccent (c : Char) : Char :=
  match c with
  | 'à' | 'á' | 'â' | 'ã' | 'ä' | 'å' => 'a'
  | 'ç' => 'c'
  | 'è' | 'é' | 'ê' | 'ë' => 'e'
  | 'ì' | 'í' | 'î' | 'ï' => 'i'
  | 'ñ' => 'n'
  | 'ò' | 'ó' | 'ô' | 'õ' | 'ö' => 'o'
  | 'ù' | 'ú' | 'û' | 'ü' => 'u'
  | 'ý' | 'ÿ' => 'y'
  | c => c

/-- Does `needle` occur at the head of `hay`? -/
def leadsWith : List Char → List Char → Bool
  | [], _ => true
  | _ :: _, [] => false
  | a :: as, b :: bs => a == b && leadsWith as bs

/-- Does `needle` occur contiguously anywhere in `hay`? -/
def occursIn (needle : List Char) : List Char → Bool
  | [] => needle.isEmpty
  | c :: rest => leadsWith needle (c :: rest) || occursIn needle rest

/-- Substring containment test (models `g.includes(target)`). -/
def includes (g target : String) : Bool := occursIn target.data g.data

/-- Session state shared by the round-controller handlers of the advanced
drafts (`score`, `roundsPlayed`, `currentPlace`). -/
structure SessionState where
  score : Int
  roundsPlayed : Nat
  currentPlace : Option Place
  deriving DecidableEq

/-- Observable effect of a guess / give-up handler call. -/
inductive RoundEvent where
  /-- Handler returned immediately because no place is active. -/
  | noop
  /-- Empty guess: only a status re-prompt, round stays open. -/
  | reprompt
  /-- Round resolved; the flag records whether it was scored correct. -/
  | resolved (correct : Bool)
  deriving DecidableEq

namespace Script

/-- Loose normalisation of `src/script.js`:
`(s || '').toLowerCase().trim()`. -/
def norm (s : String) : String := jsTrimStr ⟨s.data.map jsToLower⟩

/-- Guess check of `src/script.js` (`isGuessCorrect`): correct when the
normalised guess contains the non-empty normalised name, city or country. -/
def isGuessCorrect (guess : String) (place : Place) : Bool :=
  let g := norm guess
  let name := norm place.name
  let city := norm place.city
  let country := norm place.country
  if g.isEmpty then false
  else
    (!name.isEmpty && includes g name) ||
    (!city.isEmpty && includes g city) ||
    (!country.isEmpty && includes g country)

/-- Default selection weight from the difficulty tag
(`defaultWeightFromDifficulty` in `src/script.js`). -/
def defaultWeightFromDifficulty (diff : String) : Nat :=
  let d : String := ⟨diff.data.map jsToLower⟩
  if d = "easy" then 5
  else if d = "medium" then 3
  else if d = "hard" then 1
  else 2

/-- Effective weight of a place in the selection pool:
`Number.isFinite(p.weight) ? Math.max(1, Math.floor(p.weight)) :
defaultWeightFromDifficulty(p.difficulty)`. -/
def placeWeight (p : Place) : Nat :=
  match p.weight with
  | some w => (max 1 w.floor).toNat
  | none => defaultWeightFromDifficulty p.difficulty

/-- Swap of two positions of a list (the body of the Fisher-Yates step
`[arr[i], arr[j]] = [arr[j], arr[i]]`). -/
def swapIdx (l : List Nat) (i j : Nat) : List Nat :=
  match l.get? i, l.get? j with
  | some a, some b => (l.set i b).set j a
  | _, _ => l

/-- Fisher-Yates loop of `shuffle` in `src/script.js`: at index `i`
(running down to `1`) swap with index `tape i % (i + 1)`, where `tape`
supplies the `Math.random` draws. -/
def fyAux (tape : Nat → Nat) : Nat → List Nat → List Nat
  | 0, l => l
  | i + 1, l => fyAux tape i (swapIdx l (i + 1) (tape (i + 1) % (i + 2)))

/-- In-place shuffle (`shuffle` in `src/script.js`). -/
def shuffle (tape : Nat → Nat) (l : List Nat) : List Nat :=
  fyAux tape (l.length - 1) l

/-- Body of `buildWeightedPool` before the final shuffle: for each catalog
index, skip entries with a falsy id or an already-used id, otherwise push
the index `placeWeight` times. -/
def rawPool (places : List Place) (used : List String) : List Nat :=
  places.enum.flatMap (fun ip =>
    if ip.2.id.isEmpty || used.contains ip.2.id then []
    else List.replicate (placeWeight ip.2) ip.1)

/-- Weighted index pool of `src/script.js` (`buildWeightedPool`):
`pool.length ? shuffle(pool) : []`. -/
def buildWeightedPool (places : List Place) (used : List String)
    (tape : Nat → Nat) : List Nat :=
  let pool := rawPool places used
  if pool.length = 0 then [] else shuffle tape pool

/-- Weighted random selection of `src/script.js` (`pickNextPlace`):
draw a pool entry at `r % pool.length` and return that catalog entry,
or `none` when the pool is empty. -/
def pickNextPlace (places : List Place) (used : List String)
    (tape : Nat → Nat) (r : Nat) : Option Place :=
  let pool := buildWeightedPool places used tape
  if pool.length = 0 then none
  else
    match pool.get? (r % pool.length) with
    | some idx => places.get? idx
    | none => none

/-- Outcome of one `startRound` selection step. -/
inductive RoundOutcome where
  /-- A place was selected; `newUsed` is the used-id set afterwards. -/
  | selected (p : Place) (newUsed : List String)
  /-- Both the first pick and the post-reset retry found nothing. -/
  | unplayable
  deriving DecidableEq

/-- Selection part of `startRound` in `src/script.js`: on exhaustion clear
the used set and retry once; surface a terminal error only if the retry
also returns nothing.  `tape1, r1` drive the first pick, `tape2, r2` the
retry after the reset. -/
def startRound (places : List Place) (used : List String)
    (tape1 tape2 : Nat → Nat) (r1 r2 : Nat) : RoundOutcome :=
  match pickNextPlace places used tape1 r1 with
  | some p => .selected p (p.id :: used)
  | none =>
    match pickNextPlace places [] tape2 r2 with
    | some p => .selected p [p.id]
    | none => .unplayable

/-- Guess handler of `src/script.js` (`handleGuess`): no-op without a
current place; an empty trimmed guess only re-prompts; otherwise one round
is played and the score moves by `+1` or `-1`. -/
def handleGuess (st : SessionState) (input : String) :
    SessionState × RoundEvent :=
  match st.currentPlace with
  | none => (st, .noop)
  | some place =>
    let guess := jsTrimStr input
    if guess.isEmpty then (st, .reprompt)
    else if isGuessCorrect guess place then
      ({ st with score := st.score + 1, roundsPlayed := st.roundsPlayed + 1 },
        .resolved true)
    else
      ({ st with score := st.score - 1, roundsPlayed := st.roundsPlayed + 1 },
        .resolved false)

/-- Give-up handler of `src/script.js` (`handleGiveUp`): no-op without a
current place; otherwise one round is played, the score drops by one, and
the round is revealed as incorrect. -/
def handleGiveUp (st : SessionState) : SessionState × RoundEvent :=
  match st.currentPlace with
  | none => (st, .noop)
  | some _ =>
    ({ st with roundsPlayed := st.roundsPlayed + 1, score := st.score - 1 },
      .resolved false)

end Script

/-- JavaScript number as seen by `Number.isFinite`: a finite value or one
of the non-finite values. -/
inductive JSNum where
  | finite (q : Rat)
  | nan
  | posInf
  | negInf
  deriving DecidableEq

/-- Finite payload of an optional JavaScript number, when present. -/
def finiteVal : Option JSNum → Option Rat
  | some (.finite q) => some q
  | _ => none

/-- Test `Number.isFinite(x)` for a possibly-missing field. -/
def isFiniteNum (o : Option JSNum) : Bool := (finiteVal o).isSome

/-- Raw catalog record as decoded from `places.json`, before validation:
every field may be missing and the numeric fields may be non-finite. -/
structure RawRecord where
  id : Option String
  name : Option String
  city : Option String
  country : Option String
  lat : Option JSNum
  lng : Option JSNum
  difficulty : Option String
  weight : Option JSNum
  pov : Option Pov
  deriving DecidableEq

/-- Decoded body of the catalog document: either a JSON array of records
or some non-array value. -/
inductive JsonData where
  | arr (records : List RawRecord)
  | nonArray
  deriving DecidableEq

/-- Failure of the catalog load (`places.json is empty or not an array.`). -/
inductive LoadError where
  | emptyCatalog
  deriving DecidableEq

/-- JavaScript `a || b` on an optional string: the default wins when the
field is missing or the empty string. -/
def jsStrOr (o : Option String) (d : String) : String :=
  match o with
  | some s => if s.isEmpty then d else s
  | none => d

/-- Text form of a possibly-missing JavaScript number, as interpolated by
a template literal (coarse model; the claims never inspect it). -/
def jsNumText : Option JSNum → String
  | some (.finite q) => toString q
  | some .nan => "NaN"
  | some .posInf => "Infinity"
  | some .negInf => "-Infinity"
  | none => "undefined"

namespace Script

/-- Normalisation of one kept record in `loadPlaces` of `src/script.js`:
absent strings become `""`, an absent id is synthesised from name and
coordinates, only a finite `weight` is kept.  Callers only apply this
after the finiteness filter, so the coordinate defaults are never used. -/
def normalizeRecord (r : RawRecord) : Place :=
  { id := jsStrOr r.id
      (jsStrOr r.name "place" ++ "-" ++ jsNumText r.lat ++ "-" ++ jsNumText r.lng)
    name := jsStrOr r.name ""
    city := jsStrOr r.city ""
    country := jsStrOr r.country ""
    lat := (finiteVal r.lat).getD 0
    lng := (finiteVal r.lng).getD 0
    difficulty := jsStrOr r.difficulty ""
    weight := finiteVal r.weight
    pov := r.pov }

/-- Catalog loader of `src/script.js` (`loadPlaces`), applied to the decoded
document: throw when the data is not an array or has no records, then drop
records with non-finite coordinates and normalise the rest. -/
def loadPlaces (data : JsonData) : Except LoadError (List Place) :=
  match data with
  | .nonArray => .error .emptyCatalog
  | .arr records =>
    if records.isEmpty then .error .emptyCatalog
    else
      .ok ((records.filter
              (fun r => isFiniteNum r.lat && isFiniteNum r.lng)).map
            normalizeRecord)

end Script

/-- Outcome of one `StreetViewService.getPanorama` call: a fulfilled
response carrying an optional `data.location.latLng`, or a rejection. -/
inductive LookupResult where
  | ok (pos : Option Position)
  | err
  deriving DecidableEq

/-- Position delivered by a lookup outcome, if any. -/
def LookupResult.hit : LookupResult → Option Position
  | .ok (some p) => some p
  | _ => none

namespace Pub

/-- Normalisation of `src/public/script.js`:
`(s || '').toLowerCase().trim().normalize('NFD').replace(/\p{Diacritic}/gu, '')`. -/
def norm (s : String) : String :=
  ⟨(jsTrim (s.data.map jsToLower)).map deaccent⟩

/-- Mode-aware guess check of `src/public/script.js` (`isGuessCorrect`). -/
def isGuessCorrect (guess : String) (place : Place) (mode : String) : Bool :=
  let g := norm guess
  let name := norm place.name
  let city := norm place.city
  let country := norm place.country
  if g.isEmpty then false
  else if mode = "country" then
    !country.isEmpty && includes g country
  else if mode = "place" then
    (!name.isEmpty && includes g name) ||
    (name.isEmpty && (!city.isEmpty && includes g city))
  else
    (!name.isEmpty && includes g name) ||
    (!city.isEmpty && includes g city) ||
    (!country.isEmpty && includes g country)

/-- Search radii of `findPanoramaNear` (meters, progressively wider). -/
def radii : List Nat := [50, 150, 300, 600]

/-- Radius-expanding attempt loop of `findPanoramaNear`: one lookup per
radius, stop at the first response with a position, otherwise advance.
Returns the resolved position (if any) and the number of lookup calls. -/
def attempt (f : Nat → LookupResult) : List Nat → Option Position × Nat
  | [] => (none, 0)
  | r :: rest =>
    match f r with
    | .ok (some p) => (some p, 1)
    | .ok none => ((attempt f rest).1, (attempt f rest).2 + 1)
    | .err => ((attempt f rest).1, (attempt f rest).2 + 1)

/-- Coverage resolver of `src/public/script.js` (`findPanoramaNear`):
run the attempt loop over `radii` with the service applied to the target
coordinate. -/
def findPanoramaNear (svc : Rat → Rat → Nat → LookupResult) (lat lng : Rat) :
    Option Position × Nat :=
  attempt (svc lat lng) radii

/-- Per-id coverage cache and resolver wrapper of `src/public/script.js`
(`ensureCoverage`): serve a cached position without lookups, otherwise run
the radius search and cache only a successful result.  Returns the
position, the cache afterwards, and the number of lookup calls. -/
def ensureCoverage (cache : List (String × Position))
    (svc : Rat → Rat → Nat → LookupResult) (place : Place) :
    Option Position × List (String × Position) × Nat :=
  match List.lookup place.id cache with
  | some pos => (some pos, cache, 0)
  | none =>
    match findPanoramaNear svc place.lat place.lng with
    | (some pos, n) => (some pos, (place.id, pos) :: cache, n)
    | (none, n) => (none, cache, n)

end Pub

namespace Pub2

/-- Terminal observation of the fuelled `startRound` model. -/
inductive RoundResult where
  /-- A covered place was found and displayed. -/
  | active (p : Place) (pos : Position)
  /-- The `No valid places available` error branch. -/
  | noValid
  /-- The fuel ran out with the recursion still going. -/
  | outOfFuel
  deriving DecidableEq

/-- Round starter of the second draft in `src/public/script.js`
(`startRound`): clear the used set when every place is used, pick a random
unused place, and on a coverage miss mark it used and recurse.  The source
recursion has no cap, so the model carries explicit fuel; `rand` supplies
the `Math.random` draws (indexed by the call counter) and the second
result component counts coverage lookups. -/
def startRound (places : List Place) (resolve : Place → Option Position)
    (rand : Nat → Nat) : Nat → List String → Nat → RoundResult × Nat
  | 0, _, calls => (.outOfFuel, calls)
  | fuel + 1, used, calls =>
    let candidates := places.filter (fun p => !used.contains p.id)
    let used1 := if candidates.isEmpty then [] else used
    let pool := places.filter (fun p => !used1.contains p.id)
    match pool.get? (rand calls % pool.length) with
    | none => (.noValid, calls)
    | some place =>
      match resolve place with
      | some pos => (.active place pos, calls + 1)
      | none => startRound places resolve rand fuel (place.id :: used1) (calls + 1)

end Pub2

namespace Part000

/-- Terminal observation of the capped `startRound` of
`src/unnamed/part_000`. -/
inductive Result where
  /-- A covered place was found and displayed. -/
  | active (p : Place) (pos : Position)
  /-- The `No valid places available` error branch. -/
  | noValid
  /-- The loop exhausted its attempts: the `No Street View coverage for
  remaining locations` message. -/
  | noCoverage
  deriving DecidableEq

/-- Retry loop body of `startRound` in `src/unnamed/part_000`: up to the
given number of attempts, pick a random candidate, return on coverage,
otherwise mark it used and continue.  The candidate list is fixed at loop
entry, as in the source; the second result component counts coverage
lookups. -/
def tryAttempts (candidates : List Place) (resolve : Place → Option Position)
    (rand : Nat → Nat) : Nat → List String → Nat → Result × Nat
  | 0, _, calls => (.noCoverage, calls)
  | fuel + 1, used, calls =>
    match candidates.get? (rand calls % candidates.length) with
    | none => (.noCoverage, calls)
    | some place =>
      match resolve place with
      | some pos => (.active place pos, calls + 1)
      | none =>
        tryAttempts candidates resolve rand fuel (place.id :: used) (calls + 1)

/-- Round starter of `src/unnamed/part_000` (`startRound`): reset the used
set when the pool is exhausted, then try at most `PLACES.length || 1`
random picks before giving up with the no-coverage message. -/
def startRound (places : List Place) (used : List String)
    (resolve : Place → Option Position) (rand : Nat → Nat) : Result × Nat :=
  let pool := places.filter (fun p => !used.contains p.id)
  let used1 := if pool.isEmpty then [] else used
  let candidates := places.filter (fun p => !used1.contains p.id)
  if candidates.isEmpty then (.noValid, 0)
  else
    tryAttempts candidates resolve rand
      (if places.length = 0 then 1 else places.length) used1 0

end Part000

/-- Correctness predicate read off the words of claim C3: the normalised
guess contains the equally-normalised relevant place field (per mode) as a
substring, with no further conditions. -/
def specSubstringCorrect (guess : String) (place : Place) (mode : String) :
    Bool :=
  let g := Pub.norm guess
  if mode = "country" then includes g (Pub.norm place.country)
  else if mode = "place" then
    (if (Pub.norm place.name).isEmpty then includes g (Pub.norm place.city)
     else includes g (Pub.norm place.name))
  else
    includes g (Pub.norm place.name) || includes g (Pub.norm place.city) ||
    includes g (Pub.norm place.country)

/-- Failure condition read off the words of claim C8: the source yields a
non-sequence, no records, or a catalog empty after dropping records with
non-finite coordinates. -/
def specLoadErrorCond (data : JsonData) : Bool :=
  match data with
  | .nonArray => true
  | .arr records =>
    records.isEmpty ||
    (records.filter (fun r => isFiniteNum r.lat && isFiniteNum r.lng)).isEmpty

/-- Concrete place: the Eiffel Tower entry of the sample catalogs. -/
def egEiffel : Place :=
  { id := "eiffel", name := "Eiffel Tower", city := "Paris",
    country := "France", lat := 48.8584, lng := 2.2945,
    difficulty := "easy", weight := none, pov := none }

/-- Concrete place whose only populated match field is the country. -/
def egFrance : Place :=
  { id := "fr", name := "", city := "", country := "France",
    lat := 0, lng := 0, difficulty := "", weight := none, pov := none }

/-- Concrete place with an empty country field. -/
def egNoCountry : Place :=
  { id := "nc", name := "Eiffel Tower", city := "Paris", country := "",
    lat := 0, lng := 0, difficulty := "", weight := none, pov := none }

/-- Concrete place with id `"a"`. -/
def egA : Place :=
  { id := "a", name := "Alpha", city := "", country := "",
    lat := 1, lng := 2, difficulty := "", weight := none, pov := none }

/-- Concrete place with id `"b"`. -/
def egB : Place :=
  { id := "b", name := "Beta", city := "", country := "",
    lat := 3, lng := 4, difficulty := "hard", weight := none, pov := none }

/-- Concrete place with a falsy (empty) id. -/
def egNoId : Place :=
  { id := "", name := "Ghost", city := "", country := "",
    lat := 5, lng := 6, difficulty := "", weight := none, pov := none }

/-- Raw record whose latitude is `NaN` (dropped by the load-time filter). -/
def egBadRecord : RawRecord :=
  { id := some "bad", name := some "Nowhere", city := none, country := none,
    lat := some .nan, lng := some (.finite 0), difficulty := none,
    weight := none, pov := none }

/-- Stub imagery service that succeeds only at radius 300, with the
resolved position `⟨7, 8⟩`. -/
def stubOnly300 : Rat → Rat → Nat → LookupResult :=
  fun _ _ r => if r = 300 then .ok (some ⟨7, 8⟩) else .err

/-- Concrete mid-session state with an active place. -/
def egStateA : SessionState :=
  { score := 2, roundsPlayed := 3, currentPlace := some egA }

/-- Concrete coverage cache holding a position for id `"a"`. -/
def egCache : List (String × Position) := [("a", ⟨7, 8⟩)]

/-- Stub imagery service that never finds imagery. -/
def stubNever : Rat → Rat → Nat → LookupResult := fun _ _ _ => .err

/-! Selection-engine lemmas (for claims C1, C5, C9). -/

theorem placeWeight_pos (p : Place) : 1 ≤ Script.placeWeight p := by
  cases hw : p.weight with
  | some w =>
    simp only [Script.placeWeight, hw]
    rcases le_total 1 w.floor with h | h
    · rw [max_eq_right h]; omega
    · rw [max_eq_left h]; omega
  | none =>
    simp only [Script.placeWeight, hw, Script.defaultWeightFromDifficulty]
    split_ifs <;> omega

theorem mem_swapIdx {l : List Nat} {i j x : Nat}
    (h : x ∈ Script.swapIdx l i j) : x ∈ l := by
  unfold Script.swapIdx at h
  cases hi : l.get? i with
  | none => rw [hi] at h; exact h
  | some a =>
    cases hj : l.get? j with
    | none => rw [hi, hj] at h; exact h
    | some b =>
      rw [hi, hj] at h
      rcases List.mem_or_eq_of_mem_set h with h' | rfl
      · rcases List.mem_or_eq_of_mem_set h' with h'' | rfl
        · exact h''
        · exact List.get?_mem hj
      · exact List.get?_mem hi

theorem length_swapIdx (l : List Nat) (i j : Nat) :
    (Script.swapIdx l i j).length = l.length := by
  unfold Script.swapIdx
  cases hi : l.get? i <;> cases hj : l.get? j <;> simp

theorem mem_fyAux {tape : Nat → Nat} {x : Nat} :
    ∀ (n : Nat) (l : List Nat), x ∈ Script.fyAux tape n l → x ∈ l := by
  intro n
  induction n with
  | zero => intro l h; simpa [Script.fyAux] using h
  | succ k ih =>
    intro l h
    simp only [Script.fyAux] at h
    exact mem_swapIdx (ih _ h)

theorem length_fyAux (tape : Nat → Nat) :
    ∀ (n : Nat) (l : List Nat), (Script.fyAux tape n l).length = l.length := by
  intro n
  induction n with
  | zero => intro l; simp [Script.fyAux]
  | succ k ih =>
    intro l
    simp only [Script.fyAux]
    rw [ih, length_swapIdx]

theorem mem_shuffle {tape : Nat → Nat} {l : List Nat} {x : Nat}
    (h : x ∈ Script.shuffle tape l) : x ∈ l :=
  mem_fyAux _ _ h

theorem length_shuffle (tape : Nat → Nat) (l : List Nat) :
    (Script.shuffle tape l).length = l.length :=
  length_fyAux tape _ l

theorem mem_rawPool {places : List Place} {used : List String} {x : Nat} :
    x ∈ Script.rawPool places used ↔
      ∃ p, places.get? x = some p ∧ p.id.isEmpty = false ∧
        used.contains p.id = false := by
  unfold Script.rawPool
  rw [List.mem_flatMap]
  constructor
  · rintro ⟨⟨i, p⟩, hmem, hx⟩
    simp at hx
    obtain ⟨⟨h1, h2⟩, -, rfl⟩ := hx
    refine ⟨p, ?_, h1, by simpa using h2⟩
    rw [List.get?_eq_getElem?]
    exact List.mk_mem_enum_iff_getElem?.1 hmem
  · rintro ⟨p, hget, h1, h2⟩
    refine ⟨(x, p), ?_, ?_⟩
    · exact List.mk_mem_enum_iff_getElem?.2 (by rw [← List.get?_eq_getElem?]; exact hget)
    · have h2' : p.id ∉ used := by simpa using h2
      have hw := placeWeight_pos p
      simp [h1, h2']
      omega

theorem rawPool_eq_nil_iff {places : List Place} {used : List String} :
    Script.rawPool places used = [] ↔
      ∀ p ∈ places, p.id.isEmpty = true ∨ used.contains p.id = true := by
  rw [List.eq_nil_iff_forall_not_mem]
  constructor
  · intro h p hp
    by_contra hcon
    push_neg at hcon
    obtain ⟨h1, h2⟩ := hcon
    obtain ⟨n, hn⟩ := List.mem_iff_get?.1 hp
    exact h n (mem_rawPool.2
      ⟨p, hn, by simpa using h1, by simpa using h2⟩)
  · intro h x hx
    obtain ⟨p, hget, h1, h2⟩ := mem_rawPool.1 hx
    rcases h p (List.get?_mem hget) with hh | hh
    · rw [hh] at h1; cases h1
    · rw [hh] at h2; cases h2

theorem length_buildWeightedPool {places : List Place} {used : List String}
    {tape : Nat → Nat} :
    (Script.buildWeightedPool places used tape).length =
      (Script.rawPool places used).length := by
  unfold Script.buildWeightedPool
  by_cases h : (Script.rawPool places used).length = 0
  · simp [h]
  · simp [h, length_shuffle]

theorem mem_buildWeightedPool {places : List Place} {used : List String}
    {tape : Nat → Nat} {x : Nat}
    (h : x ∈ Script.buildWeightedPool places used tape) :
    x ∈ Script.rawPool places used := by
  unfold Script.buildWeightedPool at h
  by_cases hl : (Script.rawPool places used).length = 0
  · simp [hl] at h
  · rw [if_neg hl] at h
    exact mem_shuffle h

theorem pickNextPlace_eq_some {places : List Place} {used : List String}
    {tape : Nat → Nat} {r : Nat} {p : Place}
    (h : Script.pickNextPlace places used tape r = some p) :
    p ∈ places ∧ p.id.isEmpty = false ∧ used.contains p.id = false := by
  unfold Script.pickNextPlace at h
  by_cases hl : (Script.buildWeightedPool places used tape).length = 0
  · simp [hl] at h
  · rw [if_neg hl] at h
    cases hget : (Script.buildWeightedPool places used tape).get?
        (r % (Script.buildWeightedPool places used tape).length) with
    | none => rw [hget] at h; cases h
    | some idx =>
      rw [hget] at h
      dsimp only at h
      obtain ⟨q, hq, h1, h2⟩ :=
        mem_rawPool.1 (mem_buildWeightedPool (List.get?_mem hget))
      rw [hq] at h
      injection h with h
      subst h
      exact ⟨List.get?_mem hq, h1, h2⟩

theorem pickNextPlace_eq_none_iff {places : List Place} {used : List String}
    {tape : Nat → Nat} {r : Nat} :
    Script.pickNextPlace places used tape r = none ↔
      ∀ p ∈ places, p.id.isEmpty = true ∨ used.contains p.id = true := by
  rw [← rawPool_eq_nil_iff]
  constructor
  · intro h
    by_contra hne
    have hlen : (Script.rawPool places used).length ≠ 0 := by
      simpa [List.length_eq_zero] using hne
    have hplen : (Script.buildWeightedPool places used tape).length ≠ 0 := by
      rw [length_buildWeightedPool]; exact hlen
    have hlt : r % (Script.buildWeightedPool places used tape).length <
        (Script.buildWeightedPool places used tape).length :=
      Nat.mod_lt _ (Nat.pos_of_ne_zero hplen)
    have hget := List.get?_eq_get hlt
    obtain ⟨q, hq, -, -⟩ :=
      mem_rawPool.1 (mem_buildWeightedPool (List.get?_mem hget))
    unfold Script.pickNextPlace at h
    rw [if_neg hplen, hget] at h
    dsimp only at h
    rw [hq] at h
    cases h
  · intro h
    unfold Script.pickNextPlace
    have hz : (Script.buildWeightedPool places used tape).length = 0 := by
      rw [length_buildWeightedPool, h]
      rfl
    simp [hz]

/-! Claim theorems: selection engine. -/

/-- C1: the Selection Engine never returns a place whose id is in the
used-set — any place returned by `pickNextPlace` is a catalog entry whose
id is not in `usedIds`. -/
theorem spec_C1_selectNext_avoids_used (places : List Place)
    (used : List String) (tape : Nat → Nat) (r : Nat) (p : Place)
    (h : Script.pickNextPlace places used tape r = some p) :
    p ∈ places ∧ p.id ∉ used := by
  obtain ⟨h1, -, h3⟩ := pickNextPlace_eq_some h
  exact ⟨h1, by simpa using h3⟩

/-- Witness for C1 at a concrete catalog and used-set. -/
theorem spec_C1_witness : egA ∈ [egA] ∧ egA.id ∉ ["b"] :=
  spec_C1_selectNext_avoids_used [egA] ["b"] (fun _ => 0) 0 egA (by rfl)

/-- C5: when every catalog place is already used, the next selection under
the exhaustion policy clears the used-set and returns one of the catalog's
eligible places (the used-set afterwards holds just that place's id); the
terminal error arises exactly when the retry after clearing also finds no
eligible place (here: no entry with a truthy id). -/
theorem spec_C5_exhaustion_reset (places : List Place) (used : List String)
    (tape1 tape2 : Nat → Nat) (r1 r2 : Nat)
    (hused : ∀ p ∈ places, p.id ∈ used) :
    ((∃ p ∈ places, p.id.isEmpty = false) →
      ∃ q ∈ places, q.id.isEmpty = false ∧
        Script.startRound places used tape1 tape2 r1 r2 = .selected q [q.id]) ∧
    (Script.startRound places used tape1 tape2 r1 r2 = .unplayable ↔
      ∀ p ∈ places, p.id.isEmpty = true) := by
  have hnone1 : Script.pickNextPlace places used tape1 r1 = none := by
    apply pickNextPlace_eq_none_iff.2
    intro p hp
    right
    simpa using hused p hp
  cases hp2 : Script.pickNextPlace places [] tape2 r2 with
  | some q =>
    obtain ⟨hq1, hq2, -⟩ := pickNextPlace_eq_some hp2
    have hrun : Script.startRound places used tape1 tape2 r1 r2 =
        .selected q [q.id] := by
      unfold Script.startRound
      rw [hnone1, hp2]
    refine ⟨fun _ => ⟨q, hq1, hq2, hrun⟩, ?_⟩
    rw [hrun]
    constructor
    · intro h; simp at h
    · intro hall
      rw [hall q hq1] at hq2
      cases hq2
  | none =>
    have hall := pickNextPlace_eq_none_iff.1 hp2
    have hrun : Script.startRound places used tape1 tape2 r1 r2 =
        .unplayable := by
      unfold Script.startRound
      rw [hnone1, hp2]
    constructor
    · rintro ⟨p, hp, hne⟩
      rcases hall p hp with h | h
      · rw [h] at hne; cases hne
      · simp at h
    · rw [hrun]
      constructor
      · intro _ p hp
        rcases hall p hp with h | h
        · exact h
        · simp at h
      · intro _; rfl

/-- Witness for C5: a fully-used two-place catalog. -/
theorem spec_C5_witness :
    ((∃ p ∈ [egA, egB], p.id.isEmpty = false) →
      ∃ q ∈ [egA, egB], q.id.isEmpty = false ∧
        Script.startRound [egA, egB] ["a", "b"] (fun _ => 0) (fun _ => 0) 0 0 =
          .selected q [q.id]) ∧
    (Script.startRound [egA, egB] ["a", "b"] (fun _ => 0) (fun _ => 0) 0 0 =
        .unplayable ↔
      ∀ p ∈ [egA, egB], p.id.isEmpty = true) :=
  spec_C5_exhaustion_reset [egA, egB] ["a", "b"] (fun _ => 0) (fun _ => 0) 0 0
    (by decide)

/-- C9: a catalog entry with a falsy (missing or empty) id is skipped by
`buildWeightedPool`, so it contributes nothing to the pool even when it is
unused, the selection never returns it, and selection can return `none`
while such an entry remains unused. -/
theorem spec_C9_falsy_id_never_selected (places : List Place)
    (used : List String) (tape : Nat → Nat) (r i : Nat) (p : Place)
    (hp : places.get? i = some p) (hid : p.id.isEmpty = true) :
    i ∉ Script.buildWeightedPool places used tape ∧
    Script.pickNextPlace places used tape r ≠ some p ∧
    Script.pickNextPlace [p] [] tape r = none := by
  refine ⟨?_, ?_, ?_⟩
  · intro hmem
    obtain ⟨q, hq, h1, -⟩ := mem_rawPool.1 (mem_buildWeightedPool hmem)
    rw [hp] at hq
    injection hq with hq
    subst hq
    rw [hid] at h1
    cases h1
  · intro h
    obtain ⟨-, h1, -⟩ := pickNextPlace_eq_some h
    rw [hid] at h1
    cases h1
  · apply pickNextPlace_eq_none_iff.2
    intro q hq
    left
    rcases List.mem_singleton.1 hq with rfl
    exact hid

/-- Witness for C9 at a concrete catalog holding an empty-id entry. -/
theorem spec_C9_witness :
    1 ∉ Script.buildWeightedPool [egA, egNoId] ["z"] (fun _ => 0) ∧
    Script.pickNextPlace [egA, egNoId] ["z"] (fun _ => 0) 0 ≠ some egNoId ∧
    Script.pickNextPlace [egNoId] [] (fun _ => 0) 0 = none :=
  spec_C9_falsy_id_never_selected [egA, egNoId] ["z"] (fun _ => 0) 0 1 egNoId
    (by rfl) (by rfl)

/-! Claim theorems: round controller handlers. -/

/-- C4: in the Active state (a current place is set), `handleGiveUp`
increments `roundsPlayed` by exactly 1, decreases `score` by exactly 1,
and resolves the round as incorrect. -/
theorem spec_C4_giveUp_scoring (st : SessionState) (p : Place)
    (h : st.currentPlace = some p) :
    (Script.handleGiveUp st).1.roundsPlayed = st.roundsPlayed + 1 ∧
    (Script.handleGiveUp st).1.score = st.score - 1 ∧
    (Script.handleGiveUp st).2 = .resolved false := by
  simp [Script.handleGiveUp, h]

/-- Witness for C4 at a concrete active state. -/
theorem spec_C4_witness :
    (Script.handleGiveUp egStateA).1.roundsPlayed = egStateA.roundsPlayed + 1 ∧
    (Script.handleGiveUp egStateA).1.score = egStateA.score - 1 ∧
    (Script.handleGiveUp egStateA).2 = .resolved false :=
  spec_C4_giveUp_scoring egStateA egA (by rfl)

/-- C7: a guess that is empty after trimming mutates neither the score nor
the rounds counter and does not progress the round — the handler returns
the state unchanged with only a re-prompt status. -/
theorem spec_C7_empty_guess_no_mutation (st : SessionState) (p : Place)
    (input : String) (hcur : st.currentPlace = some p)
    (hempty : (jsTrimStr input).isEmpty = true) :
    Script.handleGuess st input = (st, .reprompt) := by
  simp [Script.handleGuess, hcur, hempty]

/-- Witness for C7: a whitespace-only guess in an active round. -/
theorem spec_C7_witness :
    Script.handleGuess egStateA "   " = (egStateA, .reprompt) :=
  spec_C7_empty_guess_no_mutation egStateA egA "   " (by rfl) (by rfl)

/-! Claim theorems: retry cap (C6) and loader (C8). -/

/-- C6: evaluation exhibiting the missing retry cap.  With a one-place
catalog whose place has coverage at no radius, the recursive `startRound`
of `src/public/script.js` has issued 5 coverage lookups after 5 recursion
steps and reached no terminal state — it marks the place used, recurses,
clears the used-set on exhaustion and recurses again, without any cap —
whereas the claim demands at most catalog-size (= 1) attempts followed by
a terminal Unplayable state.  The capped loop of `src/unnamed/part_000`
on the same input stops after exactly 1 lookup with the no-coverage
message, as the claim describes. -/
theorem spec_C6_retry_cap_divergence :
    Pub2.startRound [egA] (fun _ => none) (fun _ => 0) 5 [] 0
      = (.outOfFuel, 5) ∧
    Part000.startRound [egA] [] (fun _ => none) (fun _ => 0)
      = (.noCoverage, 1) :=
  ⟨rfl, rfl⟩

/-- C8 counterexample: a non-empty record sequence whose only record has a
non-finite latitude satisfies the claim's failure condition (empty after
filtering), yet `loadPlaces` succeeds with an empty catalog instead of
failing. -/
theorem spec_C8_counterexample :
    specLoadErrorCond (.arr [egBadRecord]) = true ∧
    Script.loadPlaces (.arr [egBadRecord]) = .ok [] :=
  ⟨rfl, rfl⟩

/-- C8 (amended): `loadPlaces` fails with `LoadError` exactly when the
decoded source is a non-sequence or has no records; a non-empty record
sequence always loads successfully — even when every record is dropped
for non-finite coordinates, which yields a successful load of an empty
catalog. -/
theorem spec_C8_load_error_amended (data : JsonData) :
    Script.loadPlaces data = .error .emptyCatalog ↔
      (data = .nonArray ∨ data = .arr []) := by
  cases data with
  | nonArray => simp [Script.loadPlaces]
  | arr records =>
    cases records with
    | nil => simp [Script.loadPlaces]
    | cons r rs => simp [Script.loadPlaces]

/-! Coverage-resolver lemmas and claim theorems (C2, C10). -/

theorem attempt_cons_of_hit_none (f : Nat → LookupResult) (r : Nat)
    (rest : List Nat) (h : (f r).hit = none) :
    Pub.attempt f (r :: rest) =
      ((Pub.attempt f rest).1, (Pub.attempt f rest).2 + 1) := by
  cases hf : f r with
  | ok o =>
    cases o with
    | some q => rw [hf] at h; simp [LookupResult.hit] at h
    | none => simp [Pub.attempt, hf]
  | err => simp [Pub.attempt, hf]

theorem attempt_cons_of_hit (f : Nat → LookupResult) (r : Nat)
    (rest : List Nat) (pos : Position) (h : f r = .ok (some pos)) :
    Pub.attempt f (r :: rest) = (some pos, 1) := by
  simp [Pub.attempt, h]

theorem attempt_first_success (f : Nat → LookupResult) (pos : Position)
    (i : Nat) (hi : i < Pub.radii.length)
    (hfail : ∀ j, j < i → (f (Pub.radii.getD j 0)).hit = none)
    (hs : f (Pub.radii.getD i 0) = .ok (some pos)) :
    Pub.attempt f Pub.radii = (some pos, i + 1) := by
  have hi4 : i < 4 := hi
  interval_cases i
  · have h0 : f 50 = .ok (some pos) := hs
    simp only [Pub.radii]
    rw [attempt_cons_of_hit f 50 _ pos h0]
  · have h0 : (f 50).hit = none := hfail 0 (by omega)
    have h1 : f 150 = .ok (some pos) := hs
    simp only [Pub.radii]
    rw [attempt_cons_of_hit_none f 50 _ h0, attempt_cons_of_hit f 150 _ pos h1]
  · have h0 : (f 50).hit = none := hfail 0 (by omega)
    have h1 : (f 150).hit = none := hfail 1 (by omega)
    have h2 : f 300 = .ok (some pos) := hs
    simp only [Pub.radii]
    rw [attempt_cons_of_hit_none f 50 _ h0, attempt_cons_of_hit_none f 150 _ h1,
      attempt_cons_of_hit f 300 _ pos h2]
  · have h0 : (f 50).hit = none := hfail 0 (by omega)
    have h1 : (f 150).hit = none := hfail 1 (by omega)
    have h2 : (f 300).hit = none := hfail 2 (by omega)
    have h3 : f 600 = .ok (some pos) := hs
    simp only [Pub.radii]
    rw [attempt_cons_of_hit_none f 50 _ h0, attempt_cons_of_hit_none f 150 _ h1,
      attempt_cons_of_hit_none f 300 _ h2, attempt_cons_of_hit f 600 _ pos h3]

/-- C2: the Coverage Resolver issues lookups along the non-decreasing
radius list `[50, 150, 300, 600]`, advances past a radius exactly when its
lookup reports no imagery (a fulfilled response with no position) or
errors, and on the first successful lookup returns its position
immediately: when the first `i` radii fail and radius `i` succeeds with
position `pos`, the resolver returns `pos` after exactly `i + 1` lookup
calls. -/
theorem spec_C2_first_success (svc : Rat → Rat → Nat → LookupResult)
    (lat lng : Rat) (pos : Position) (i : Nat) (hi : i < Pub.radii.length)
    (hfail : ∀ j, j < i → (svc lat lng (Pub.radii.getD j 0)).hit = none)
    (hs : svc lat lng (Pub.radii.getD i 0) = .ok (some pos)) :
    Pub.findPanoramaNear svc lat lng = (some pos, i + 1) ∧
      List.Chain' (· ≤ ·) Pub.radii :=
  ⟨attempt_first_success (svc lat lng) pos i hi hfail hs,
    by norm_num [Pub.radii, List.chain'_cons]⟩

/-- Witness for C2: the stub service succeeding only at radius 300 yields
exactly 3 lookup calls and the position supplied at radius 300. -/
theorem spec_C2_witness :
    Pub.findPanoramaNear stubOnly300 0 0 = (some ⟨7, 8⟩, 3) ∧
      List.Chain' (· ≤ ·) Pub.radii :=
  spec_C2_first_success stubOnly300 0 0 ⟨7, 8⟩ 2 (by decide) (by decide)
    (by decide)

/-- C10: coverage caching is success-only.  A cached id is answered from
the cache with zero lookups; on a cache miss a successful radius search is
stored, so the repeat call for that id performs zero lookups and returns
the same position; and a failed radius search leaves the cache unchanged,
so a later call for that id repeats the full search (same call count). -/
theorem spec_C10_coverage_cache (cache : List (String × Position))
    (svc : Rat → Rat → Nat → LookupResult) (place : Place) (pos : Position)
    (n : Nat) :
    (List.lookup place.id cache = some pos →
      Pub.ensureCoverage cache svc place = (some pos, cache, 0)) ∧
    (List.lookup place.id cache = none →
      Pub.findPanoramaNear svc place.lat place.lng = (some pos, n) →
      Pub.ensureCoverage cache svc place =
          (some pos, (place.id, pos) :: cache, n) ∧
        Pub.ensureCoverage ((place.id, pos) :: cache) svc place =
          (some pos, (place.id, pos) :: cache, 0)) ∧
    (List.lookup place.id cache = none →
      Pub.findPanoramaNear svc place.lat place.lng = (none, n) →
      Pub.ensureCoverage cache svc place = (none, cache, n)) := by
  refine ⟨?_, ?_, ?_⟩
  · intro h
    simp [Pub.ensureCoverage, h]
  · intro h hf
    constructor
    · simp [Pub.ensureCoverage, h, hf]
    · simp [Pub.ensureCoverage, List.lookup]
  · intro h hf
    simp [Pub.ensureCoverage, h, hf]

/-- Witness for C10: the three cache behaviours at concrete inputs. -/
theorem spec_C10_witness :
    Pub.ensureCoverage egCache stubOnly300 egA = (some ⟨7, 8⟩, egCache, 0) ∧
    (Pub.ensureCoverage [] stubOnly300 egA =
        (some ⟨7, 8⟩, [("a", ⟨7, 8⟩)], 3) ∧
      Pub.ensureCoverage [("a", ⟨7, 8⟩)] stubOnly300 egA =
        (some ⟨7, 8⟩, [("a", ⟨7, 8⟩)], 0)) ∧
    Pub.ensureCoverage [] stubNever egA = (none, [], 4) :=
  ⟨(spec_C10_coverage_cache egCache stubOnly300 egA ⟨7, 8⟩ 0).1 (by rfl),
   (spec_C10_coverage_cache [] stubOnly300 egA ⟨7, 8⟩ 3).2.1 (by rfl) (by rfl),
   (spec_C10_coverage_cache [] stubNever egA ⟨7, 8⟩ 4).2.2 (by rfl) (by rfl)⟩

/-! Guess-evaluator lemmas and claim theorems (C3). -/

theorem leadsWith_iff : ∀ {n h : List Char},
    leadsWith n h = true ↔ ∃ post, h = n ++ post := by
  intro n
  induction n with
  | nil => intro h; simp [leadsWith]
  | cons a as ih =>
    intro h
    cases h with
    | nil => simp [leadsWith]
    | cons b bs =>
      simp only [leadsWith, Bool.and_eq_true, ih]
      constructor
      · rintro ⟨hab, post, rfl⟩
        have hab' : a = b := by simpa using hab
        exact ⟨post, by simp [hab', List.cons_append]⟩
      · rintro ⟨post, heq⟩
        rw [List.cons_append] at heq
        injection heq with h1 h2
        exact ⟨by simp [h1], post, h2⟩

theorem occursIn_iff : ∀ {n h : List Char},
    occursIn n h = true ↔ ∃ pre post, h = pre ++ n ++ post := by
  intro n h
  induction h with
  | nil =>
    simp only [occursIn, List.isEmpty_iff]
    constructor
    · rintro rfl
      exact ⟨[], [], rfl⟩
    · rintro ⟨pre, post, heq⟩
      rcases List.append_eq_nil.1 heq.symm with ⟨h1, rfl⟩
      rcases List.append_eq_nil.1 h1 with ⟨rfl, rfl⟩
      rfl
  | cons c rest ih =>
    simp only [occursIn, Bool.or_eq_true, leadsWith_iff, ih]
    constructor
    · rintro (⟨post, heq⟩ | ⟨pre, post, heq⟩)
      · exact ⟨[], post, by simpa using heq⟩
      · exact ⟨c :: pre, post, by simp [heq]⟩
    · rintro ⟨pre, post, heq⟩
      cases pre with
      | nil => exact Or.inl ⟨post, by simpa using heq⟩
      | cons d pres =>
        right
        rw [List.cons_append] at heq
        injection heq with h1 h2
        exact ⟨pres, post, h2⟩

theorem includes_iff {g t : String} :
    includes g t = true ↔ ∃ pre post, g.data = pre ++ t.data ++ post :=
  occursIn_iff

theorem isEmpty_empty_str : "".isEmpty = true := rfl

theorem isEmpty_eq_false_iff (s : String) : s.isEmpty = false ↔ s ≠ "" := by
  constructor
  · intro h hh
    rw [hh, isEmpty_empty_str] at h
    exact Bool.noConfusion h
  · intro h
    cases hb : s.isEmpty with
    | false => rfl
    | true => exact absurd ((String.isEmpty_iff s).1 hb) h

/-- C3 counterexample: for a place whose country field is empty, the
claim's containment formula holds vacuously (every string contains the
empty string), yet the evaluator answers `false` — so `isCorrect` is not
equivalent to bare substring containment of the relevant field. -/
theorem spec_C3_counterexample :
    specSubstringCorrect "x" egNoCountry "country" = true ∧
    Pub.isGuessCorrect "x" egNoCountry "country" = false :=
  ⟨rfl, rfl⟩

/-- C3 (amended): `isGuessCorrect` returns `true` exactly when the
normalised guess (lowercased, trimmed, diacritics stripped) is non-empty
and the equally-normalised relevant place field for the mode is non-empty
and occurs in the normalised guess as a contiguous substring (for the
combined mode: some non-empty field occurs; for place mode the relevant
field is the name, falling back to the city only when the name is empty).
Equality is not required and no fuzzy matching is performed: the guess
`"frnce"` never matches country `"France"`. -/
theorem spec_C3_substring_amended (guess : String) (place : Place) :
    (Pub.isGuessCorrect guess place "country" = true ↔
      (Pub.norm guess ≠ "" ∧ Pub.norm place.country ≠ "" ∧
        ∃ pre post, (Pub.norm guess).data =
          pre ++ (Pub.norm place.country).data ++ post)) ∧
    (Pub.isGuessCorrect guess place "place" = true ↔
      (Pub.norm guess ≠ "" ∧
        ((Pub.norm place.name ≠ "" ∧
            ∃ pre post, (Pub.norm guess).data =
              pre ++ (Pub.norm place.name).data ++ post) ∨
          (Pub.norm place.name = "" ∧ Pub.norm place.city ≠ "" ∧
            ∃ pre post, (Pub.norm guess).data =
              pre ++ (Pub.norm place.city).data ++ post)))) ∧
    (Pub.isGuessCorrect guess place "city-or-place" = true ↔
      (Pub.norm guess ≠ "" ∧
        ((Pub.norm place.name ≠ "" ∧
            ∃ pre post, (Pub.norm guess).data =
              pre ++ (Pub.norm place.name).data ++ post) ∨
          (Pub.norm place.city ≠ "" ∧
            ∃ pre post, (Pub.norm guess).data =
              pre ++ (Pub.norm place.city).data ++ post) ∨
          (Pub.norm place.country ≠ "" ∧
            ∃ pre post, (Pub.norm guess).data =
              pre ++ (Pub.norm place.country).data ++ post)))) ∧
    Pub.isGuessCorrect "frnce" egFrance "country" = false := by
  refine ⟨?_, ?_, ?_, by rfl⟩
  · cases hg : (Pub.norm guess).isEmpty with
    | true =>
      have hg' : Pub.norm guess = "" := (String.isEmpty_iff _).1 hg
      simp [Pub.isGuessCorrect, hg, hg', isEmpty_empty_str]
    | false =>
      have hg' : Pub.norm guess ≠ "" := (isEmpty_eq_false_iff _).1 hg
      simp [Pub.isGuessCorrect, hg, includes_iff, isEmpty_eq_false_iff, hg']
  · cases hg : (Pub.norm guess).isEmpty with
    | true =>
      have hg' : Pub.norm guess = "" := (String.isEmpty_iff _).1 hg
      simp [Pub.isGuessCorrect, hg, hg', isEmpty_empty_str]
    | false =>
      have hg' : Pub.norm guess ≠ "" := (isEmpty_eq_false_iff _).1 hg
      simp [Pub.isGuessCorrect, hg, includes_iff, isEmpty_eq_false_iff,
        String.isEmpty_iff, hg']
  · cases hg : (Pub.norm guess).isEmpty with
    | true =>
      have hg' : Pub.norm guess = "" := (String.isEmpty_iff _).1 hg
      simp [Pub.isGuessCorrect, hg, hg', isEmpty_empty_str]
    | false =>
      have hg' : Pub.norm guess ≠ "" := (isEmpty_eq_false_iff _).1 hg
      simp [Pub.isGuessCorrect, hg, includes_iff, isEmpty_eq_false_iff, hg']
      exact or_assoc

/-- Witness for the amended C3: containment-only matching rejects the
fuzzy guess `"frnce"` against country `"France"`. -/
theorem spec_C3_witness :
    Pub.isGuessCorrect "frnce" egFrance "country" = false :=
  (spec_C3_substring_amended "frnce" egFrance).2.2.2

/-- Witness for the amended C8: a non-array source is a `LoadError`. -/
theorem spec_C8_witness :
    Script.loadPlaces .nonArray = .error .emptyCatalog :=
  (spec_C8_load_error_amended .nonArray).2 (Or.inl rfl)
